import Mathlib

/-
  Verification of the simulation core of a top-down arcade shooter
  (enemy damage/phase model, collision resolution engine, spawn
  controller, and mission/objective state machine).

  The definitions below are a shallow embedding of the TypeScript
  sources: numeric fields use Int / Rat, virtual dispatch becomes
  function parameters, callback invocations become entries in an
  explicit event list, and the reverse-index splice loops of the
  collision engine become structural recursions that process the
  tail of each list first (the tail holds the higher indices, which
  the source scans first).
-/

namespace Commando

/- Constants from src/config/GameConfig.ts -/

def SOLDIER_POINTS : Nat := 100
def TANK_POINTS : Nat := 300
def JEEP_POINTS : Nat := 200
def KNIFE_SOLDIER_POINTS : Nat := 150
def ROCKET_LAUNCHER_POINTS : Nat := 250
def COVERED_SOLDIER_POINTS : Nat := 175
def BUNKER_POINTS : Nat := 400
def BOSS_POINTS : Nat := 1000

def BOSS_SPEED : ℚ := 60
def BOSS_HEALTH : Int := 20

def GRENADE_INITIAL_COUNT : Int := 10
def GRENADE_EXPLOSION_RADIUS : ℚ := 80

def ENEMY_SPAWN_RATE_INITIAL : ℚ := 1200
def ENEMY_SPAWN_RATE_MIN : ℚ := 400

/- Enemy archetype tags, from the EnemyType enum in src/types.ts.
   The enum is closed with exactly these eight members, so the
   default branch of the scoring table is unreachable in the source. -/

inductive EnemyType where
  | SOLDIER
  | TANK
  | JEEP
  | KNIFE_SOLDIER
  | ROCKET_LAUNCHER
  | COVERED_SOLDIER
  | BUNKER
  | BOSS
deriving DecidableEq

/- CollisionSystem.getPointsForEnemy (src/systems/CollisionSystem.ts). -/

def getPointsForEnemy : EnemyType → Nat
  | .SOLDIER => SOLDIER_POINTS
  | .TANK => TANK_POINTS
  | .JEEP => JEEP_POINTS
  | .KNIFE_SOLDIER => KNIFE_SOLDIER_POINTS
  | .ROCKET_LAUNCHER => ROCKET_LAUNCHER_POINTS
  | .COVERED_SOLDIER => COVERED_SOLDIER_POINTS
  | .BUNKER => BUNKER_POINTS
  | .BOSS => BOSS_POINTS

/- Base-class damage rule, Enemy.takeDamage:
   health is decremented and the enemy reports destroyed when the
   resulting health is at most zero. -/

def takeDamage (health : Int) : Int × Bool :=
  (health - 1, decide (health - 1 ≤ 0))

/- Health after n successive calls of the base takeDamage. -/

def healthAfter (health : Int) : Nat → Int
  | 0 => health
  | n + 1 => (takeDamage (healthAfter health n)).1

/- Result reported by call number n + 1 (calls are counted from 1). -/

def destroyedOnCall (health : Int) (n : Nat) : Bool :=
  (takeDamage (healthAfter health n)).2

/- Boss damage and phase model, Boss.takeDamage (src Boss class).
   The source compares health / maxHealth against the double
   literals 0.33 and 0.66; every reachable percentage is a multiple
   of 1/20 (maxHealth is 20), which is never within double-rounding
   distance of either threshold, so exact rational thresholds are a
   faithful model. -/

structure BossState where
  health : Int
  phase : Nat
  speed : ℚ
deriving DecidableEq

def bossInit : BossState :=
  { health := BOSS_HEALTH, phase := 1, speed := BOSS_SPEED }

def bossTakeDamage (b : BossState) : BossState × Bool :=
  let h := b.health - 1
  let healthPercent : ℚ := (h : ℚ) / (BOSS_HEALTH : ℚ)
  if healthPercent ≤ 0.33 ∧ b.phase ≠ 3 then
    ({ health := h, phase := 3, speed := BOSS_SPEED * 1.5 }, decide (h ≤ 0))
  else if healthPercent ≤ 0.66 ∧ b.phase ≠ 2 then
    ({ health := h, phase := 2, speed := BOSS_SPEED * 1.2 }, decide (h ≤ 0))
  else
    ({ b with health := h }, decide (h ≤ 0))

/- Boss state after n successive takeDamage calls from the initial
   state (phase 1, health 20). -/

def bossAfter : Nat → BossState
  | 0 => bossInit
  | n + 1 => (bossTakeDamage (bossAfter n)).1

/- Spawn controller, src/systems/SpawnSystem.ts. -/

structure SpawnState where
  lastEnemySpawn : ℚ
  enemySpawnRate : ℚ
  lastPowerUpSpawn : ℚ
deriving DecidableEq

def powerUpSpawnRate : ℚ := 15000

def spawnInit : SpawnState :=
  { lastEnemySpawn := 0
    enemySpawnRate := ENEMY_SPAWN_RATE_INITIAL
    lastPowerUpSpawn := 0 }

/- Interval installed after an enemy-spawn event in SpawnSystem.update. -/

def newEnemySpawnRate (mapProgress : ℚ) : ℚ :=
  max ENEMY_SPAWN_RATE_MIN (ENEMY_SPAWN_RATE_INITIAL - mapProgress / 10)

def shouldSpawn (st : SpawnState) (time : ℚ) : Bool :=
  decide (st.lastEnemySpawn + st.enemySpawnRate < time)

def shouldSpawnPowerUp (st : SpawnState) (time : ℚ) : Bool :=
  decide (st.lastPowerUpSpawn + powerUpSpawnRate < time)

/- Timer bookkeeping of SpawnSystem.update (entity creation itself is
   randomized and handled by createRandomEnemy below). -/

def spawnUpdate (st : SpawnState) (time mapProgress : ℚ) : SpawnState :=
  let st1 :=
    if shouldSpawn st time then
      { st with
          lastEnemySpawn := time
          enemySpawnRate := newEnemySpawnRate mapProgress }
    else st
  if shouldSpawnPowerUp st1 time then
    { st1 with lastPowerUpSpawn := time }
  else st1

/- SpawnSystem.createRandomEnemy: archetype from one uniform draw,
   with progress-gated cumulative thresholds. -/

def createRandomEnemy (mapProgress roll : ℚ) : EnemyType :=
  if mapProgress < 100 then
    if roll < 0.60 then .SOLDIER
    else if roll < 0.85 then .JEEP
    else .TANK
  else if mapProgress < 200 then
    if roll < 0.40 then .SOLDIER
    else if roll < 0.60 then .JEEP
    else if roll < 0.75 then .TANK
    else if roll < 0.90 then .KNIFE_SOLDIER
    else .COVERED_SOLDIER
  else if mapProgress < 300 then
    if roll < 0.30 then .SOLDIER
    else if roll < 0.45 then .JEEP
    else if roll < 0.60 then .TANK
    else if roll < 0.75 then .KNIFE_SOLDIER
    else if roll < 0.85 then .COVERED_SOLDIER
    else if roll < 0.95 then .ROCKET_LAUNCHER
    else .BUNKER
  else
    if roll < 0.25 then .SOLDIER
    else if roll < 0.35 then .JEEP
    else if roll < 0.45 then .TANK
    else if roll < 0.60 then .KNIFE_SOLDIER
    else if roll < 0.70 then .COVERED_SOLDIER
    else if roll < 0.85 then .ROCKET_LAUNCHER
    else if roll < 0.95 then .BUNKER
    else .BOSS

/- Spawn table as the specification states it: per-band percentages
   accumulated into thresholds against one uniform draw. This
   definition follows the words of the spec table and is compared
   with createRandomEnemy, which is translated from the source. -/

def specSpawnTable (mapProgress roll : ℚ) : EnemyType :=
  if mapProgress < 100 then
    if roll < 60/100 then .SOLDIER
    else if roll < 60/100 + 25/100 then .JEEP
    else .TANK
  else if mapProgress < 200 then
    if roll < 40/100 then .SOLDIER
    else if roll < 40/100 + 20/100 then .JEEP
    else if roll < 40/100 + 20/100 + 15/100 then .TANK
    else if roll < 40/100 + 20/100 + 15/100 + 15/100 then .KNIFE_SOLDIER
    else .COVERED_SOLDIER
  else if mapProgress < 300 then
    if roll < 30/100 then .SOLDIER
    else if roll < 30/100 + 15/100 then .JEEP
    else if roll < 30/100 + 15/100 + 15/100 then .TANK
    else if roll < 30/100 + 15/100 + 15/100 + 15/100 then .KNIFE_SOLDIER
    else if roll < 30/100 + 15/100 + 15/100 + 15/100 + 10/100 then .COVERED_SOLDIER
    else if roll < 30/100 + 15/100 + 15/100 + 15/100 + 10/100 + 10/100 then .ROCKET_LAUNCHER
    else .BUNKER
  else
    if roll < 25/100 then .SOLDIER
    else if roll < 25/100 + 10/100 then .JEEP
    else if roll < 25/100 + 10/100 + 10/100 then .TANK
    else if roll < 25/100 + 10/100 + 10/100 + 15/100 then .KNIFE_SOLDIER
    else if roll < 25/100 + 10/100 + 10/100 + 15/100 + 10/100 then .COVERED_SOLDIER
    else if roll < 25/100 + 10/100 + 10/100 + 15/100 + 10/100 + 15/100 then .ROCKET_LAUNCHER
    else if roll < 25/100 + 10/100 + 10/100 + 15/100 + 10/100 + 15/100 + 10/100 then .BUNKER
    else .BOSS

/- Mission/objective state machine, src/systems/LevelSystem.ts.
   Description strings are presentation-only and omitted. -/

inductive ObjectiveType where
  | kills
  | distance
  | survive
  | boss
deriving DecidableEq

structure LevelObjective where
  otype : ObjectiveType
  target : Int
  completed : Bool
deriving DecidableEq

/- One iteration of the loop body of LevelSystem.areObjectivesComplete:
   the loop returns false early when the input misses the target of a
   kills, distance or boss objective; the switch has no case for the
   survive kind, so a survive objective is never checked. -/

def objectivePasses (o : LevelObjective) (kills distance : Int)
    (bossDefeated : Bool) : Bool :=
  match o.otype with
  | .kills => decide (o.target ≤ kills)
  | .distance => decide (o.target ≤ distance)
  | .boss => bossDefeated
  | .survive => true

def areObjectivesComplete (objs : List LevelObjective) (kills distance : Int)
    (bossDefeated : Bool) : Bool :=
  objs.all fun o => objectivePasses o kills distance bossDefeated

/- Satisfaction of an objective as the specification words it: kills
   at or above target for each kill objective, distance at or above
   target for each distance objective, bossDefeated for each boss
   objective. Used to compare with areObjectivesComplete. -/

def specObjectiveSatisfied (o : LevelObjective) (kills distance : Int)
    (bossDefeated : Bool) : Prop :=
  (o.otype = .kills → o.target ≤ kills) ∧
  (o.otype = .distance → o.target ≤ distance) ∧
  (o.otype = .boss → bossDefeated = true)

structure LevelProgress where
  currentLevel : Nat
  levelsCompleted : List Nat
  totalScore : Int
  totalKills : Int
deriving DecidableEq

/- LevelSystem.initializeLevels installs exactly levels 1, 2 and 3,
   so this is the membership test of the levels map. -/

def levelsHas (n : Nat) : Bool :=
  n == 1 || n == 2 || n == 3

/- LevelSystem.completeLevel. The stored progress record is loaded,
   the current level index is appended to levelsCompleted unless
   already present, score and kills are accumulated, and the current
   level pointer advances only when the next level exists (in which
   case the stored currentLevel field is updated as well). Returns
   the new in-memory current level and the record that is saved. -/

def completeLevel (currentLevel : Nat) (stored : LevelProgress)
    (score kills : Int) : Nat × LevelProgress :=
  let lc :=
    if currentLevel ∈ stored.levelsCompleted then stored.levelsCompleted
    else stored.levelsCompleted ++ [currentLevel]
  let p1 : LevelProgress :=
    { stored with
        levelsCompleted := lc
        totalScore := stored.totalScore + score
        totalKills := stored.totalKills + kills }
  if levelsHas (currentLevel + 1) then
    (currentLevel + 1, { p1 with currentLevel := currentLevel + 1 })
  else
    (currentLevel, p1)

/- Player grenade inventory, src/entities/Player.ts. -/

structure PlayerGrenades where
  grenadeCount : Int
  lastGrenadeThrow : ℚ
deriving DecidableEq

def grenadeThrowRate : ℚ := 300

def playerInitGrenades : PlayerGrenades :=
  { grenadeCount := GRENADE_INITIAL_COUNT, lastGrenadeThrow := 0 }

/- Player.throwGrenade: a grenade is produced (Bool true stands for
   the returned Grenade object, false for null) only when the count
   is positive and the cooldown has elapsed. -/

def throwGrenade (st : PlayerGrenades) (time : ℚ) : PlayerGrenades × Bool :=
  if 0 < st.grenadeCount ∧ st.lastGrenadeThrow + grenadeThrowRate < time then
    ({ grenadeCount := st.grenadeCount - 1, lastGrenadeThrow := time }, true)
  else
    (st, false)

/- Player.addGrenades. -/

def addGrenades (st : PlayerGrenades) (count : Int) : PlayerGrenades :=
  { st with grenadeCount := st.grenadeCount + count }

inductive GrenadeOp where
  | throwAt (time : ℚ)
  | addPack (count : Int)

def runGrenadeOps : PlayerGrenades → List GrenadeOp → PlayerGrenades
  | st, [] => st
  | st, .throwAt t :: rest => runGrenadeOps (throwGrenade st t).1 rest
  | st, .addPack n :: rest => runGrenadeOps (addGrenades st n) rest

/- Collision and resolution engine, src/systems/CollisionSystem.ts.

   Entities carry an identifier so that callback invocations can be
   counted per entity; positions are rationals. Overlap testing is a
   consumed primitive in the source (Phaser arcade physics), so it is
   a relation parameter here. Virtual dispatch of Enemy.takeDamage is
   a function parameter dmg; the base-class behavior is baseDamage
   below. Callback invocations (takeDamage, score update, game over,
   boss defeated, power-up application, grenade-count report) are
   recorded in an event list in execution order. -/

structure BulletE where
  id : Nat
deriving DecidableEq

structure EnemyE where
  id : Nat
  etype : EnemyType
  health : Int
  x : ℚ
  y : ℚ
deriving DecidableEq

structure GrenadeE where
  id : Nat
  x : ℚ
  y : ℚ
  exploded : Bool
  explosionRadius : ℚ
deriving DecidableEq

structure PowerUpE where
  id : Nat
  collected : Bool
deriving DecidableEq

structure PlayerE where
  invincible : Bool
  dead : Bool
  grenadeCount : Int
deriving DecidableEq

/- Base-class Enemy.takeDamage specialized to the embedded enemy
   record (decrement health, destroyed when it reaches zero or less). -/

def baseDamage (e : EnemyE) : EnemyE × Bool :=
  ({ e with health := e.health - 1 }, decide (e.health - 1 ≤ 0))

inductive DmgSource where
  | bullet (id : Nat)
  | grenade (id : Nat)
deriving DecidableEq

inductive Event where
  | damage (src : DmgSource) (enemyId : Nat)
  | killed (src : DmgSource) (enemyId : Nat) (etype : EnemyType)
  | bossDefeated
  | scoreUpdate (score kills : Nat)
  | gameOver
  | powerApply (powerUpId : Nat)
  | grenadeReport (count : Int)
deriving DecidableEq

/- Events emitted when a damaged enemy reports destroyed: the source
   fires the boss-defeated callback when the archetype is BOSS, adds
   the archetype points to the score, increments the kill count,
   removes the enemy and fires the score callback. -/

def killEvents (src : DmgSource) (e : EnemyE) (score kills : Nat) : List Event :=
  (if e.etype = EnemyType.BOSS then [Event.bossDefeated] else []) ++
    [Event.killed src e.id e.etype,
     Event.scoreUpdate (score + getPointsForEnemy e.etype) (kills + 1)]

/- Inner loop of the bullet phase: enemies are scanned from the last
   index toward the first and the scan stops at the first overlap.
   Processing the list tail first reproduces that order. Returns none
   when no enemy overlaps the bullet, otherwise the updated enemy
   list, score, kill count and emitted events. -/

def scanEnemies (ov : BulletE → EnemyE → Bool) (dmg : EnemyE → EnemyE × Bool)
    (b : BulletE) (score kills : Nat) :
    List EnemyE → Option (List EnemyE × Nat × Nat × List Event)
  | [] => none
  | e :: rest =>
    match scanEnemies ov dmg b score kills rest with
    | some (rest1, s, k, evs) => some (e :: rest1, s, k, evs)
    | none =>
      if ov b e then
        let (e1, destroyed) := dmg e
        if destroyed then
          some (rest, score + getPointsForEnemy e.etype, kills + 1,
            Event.damage (.bullet b.id) e.id :: killEvents (.bullet b.id) e score kills)
        else
          some (e1 :: rest, score, kills, [Event.damage (.bullet b.id) e.id])
      else
        none

/- Outer loop of the bullet phase: bullets are scanned from the last
   index toward the first; a bullet that overlaps an enemy is removed
   and resolves against that one enemy only. -/

def bulletLoop (ov : BulletE → EnemyE → Bool) (dmg : EnemyE → EnemyE × Bool) :
    List BulletE → List EnemyE → Nat → Nat →
    List BulletE × List EnemyE × Nat × Nat × List Event
  | [], es, s, k => ([], es, s, k, [])
  | b :: rest, es, s, k =>
    let (bs1, es1, s1, k1, evs1) := bulletLoop ov dmg rest es s k
    match scanEnemies ov dmg b s1 k1 es1 with
    | none => (b :: bs1, es1, s1, k1, evs1)
    | some (es2, s2, k2, evs2) => (bs1, es2, s2, k2, evs1 ++ evs2)

/- Area test of the grenade phase: the source compares the Euclidean
   distance with the radius; with a nonnegative radius that is the
   same as comparing squares, which keeps the test rational. -/

def withinRadius (g : GrenadeE) (e : EnemyE) : Bool :=
  decide ((e.x - g.x) * (e.x - g.x) + (e.y - g.y) * (e.y - g.y) ≤
    g.explosionRadius * g.explosionRadius)

/- Inner loop of the grenade phase: every enemy within the radius of
   an exploded grenade is damaged (no break), enemies scanned from
   the last index toward the first. -/

def grenadeScan (dmg : EnemyE → EnemyE × Bool) (g : GrenadeE) :
    List EnemyE → Nat → Nat → List EnemyE × Nat × Nat × List Event
  | [], s, k => ([], s, k, [])
  | e :: rest, s, k =>
    let (rest1, s1, k1, evs1) := grenadeScan dmg g rest s k
    if withinRadius g e then
      let (e1, destroyed) := dmg e
      if destroyed then
        (rest1, s1 + getPointsForEnemy e.etype, k1 + 1,
          evs1 ++ (Event.damage (.grenade g.id) e.id :: killEvents (.grenade g.id) e s1 k1))
      else
        (e1 :: rest1, s1, k1, evs1 ++ [Event.damage (.grenade g.id) e.id])
    else
      (e :: rest1, s1, k1, evs1)

/- Outer loop of the grenade phase: grenades scanned from the last
   index toward the first; only exploded grenades participate and the
   grenade list itself is not modified by the collision system. -/

def grenadeLoop (dmg : EnemyE → EnemyE × Bool) :
    List GrenadeE → List EnemyE → Nat → Nat →
    List EnemyE × Nat × Nat × List Event
  | [], es, s, k => (es, s, k, [])
  | g :: rest, es, s, k =>
    let (es1, s1, k1, evs1) := grenadeLoop dmg rest es s k
    if g.exploded then
      let (es2, s2, k2, evs2) := grenadeScan dmg g es1 s1 k1
      (es2, s2, k2, evs1 ++ evs2)
    else
      (es1, s1, k1, evs1)

/- Power-up phase: power-ups scanned from the last index toward the
   first; on the first overlap the effect is applied, the power-up is
   marked collected, the grenade count is reported, and the loop
   breaks. The Bool result records whether a hit already happened,
   so that earlier entries are not tested after the break. -/

def powerUpScan (ovPP : PlayerE → PowerUpE → Bool)
    (applyPU : PowerUpE → PlayerE → PlayerE) (p : PlayerE) :
    List PowerUpE → PlayerE × List PowerUpE × List Event × Bool
  | [] => (p, [], [], false)
  | pu :: rest =>
    let (p1, rest1, evs1, hit) := powerUpScan ovPP applyPU p rest
    if hit then
      (p1, pu :: rest1, evs1, true)
    else if ovPP p pu then
      let p2 := applyPU pu p
      (p2, { pu with collected := true } :: rest1,
        [Event.powerApply pu.id, Event.grenadeReport p2.grenadeCount], true)
    else
      (p, pu :: rest1, [], false)

structure CollisionResult where
  bullets : List BulletE
  grenades : List GrenadeE
  enemies : List EnemyE
  powerUps : List PowerUpE
  player : PlayerE
  score : Nat
  kills : Nat
  events : List Event
deriving DecidableEq

/- CollisionSystem.checkCollisions: bullet phase, then grenade phase,
   then the player-enemy check (skipped while invincible or dead; on
   the first overlap, iterated in forward order, the game-over
   callback fires and the function returns at once), then the
   power-up phase. -/

def checkCollisions (ov : BulletE → EnemyE → Bool) (dmg : EnemyE → EnemyE × Bool)
    (ovPE : PlayerE → EnemyE → Bool) (ovPP : PlayerE → PowerUpE → Bool)
    (applyPU : PowerUpE → PlayerE → PlayerE) (p : PlayerE)
    (bullets : List BulletE) (grenades : List GrenadeE)
    (enemies : List EnemyE) (powerUps : List PowerUpE)
    (score kills : Nat) : CollisionResult :=
  let (bs, es1, s1, k1, evs1) := bulletLoop ov dmg bullets enemies score kills
  let (es2, s2, k2, evs2) := grenadeLoop dmg grenades es1 s1 k1
  if !p.invincible && !p.dead && es2.any fun e => ovPE p e then
    { bullets := bs, grenades := grenades, enemies := es2,
      powerUps := powerUps, player := p, score := s2, kills := k2,
      events := evs1 ++ evs2 ++ [Event.gameOver] }
  else
    let (p1, pus, evs3, _) := powerUpScan ovPP applyPU p powerUps
    { bullets := bs, grenades := grenades, enemies := es2,
      powerUps := pus, player := p1, score := s2, kills := k2,
      events := evs1 ++ evs2 ++ evs3 }

/- Event-counting helpers used to state properties of the engine. -/

def isDamageFrom (src : DmgSource) : Event → Bool
  | .damage s _ => decide (s = src)
  | _ => false

def isDamageTo (enemyId : Nat) : Event → Bool
  | .damage _ t => decide (t = enemyId)
  | _ => false

def damageCountFrom (src : DmgSource) (evs : List Event) : Nat :=
  evs.countP (isDamageFrom src)

def damageCountTo (enemyId : Nat) (evs : List Event) : Nat :=
  evs.countP (isDamageTo enemyId)

def killedTypes (evs : List Event) : List EnemyType :=
  evs.filterMap fun ev =>
    match ev with
    | .killed _ _ t => some t
    | _ => none

def bossDefeatedCount (evs : List Event) : Nat :=
  evs.countP fun ev => decide (ev = Event.bossDefeated)

def isPowerEvent : Event → Bool
  | .powerApply _ => true
  | .grenadeReport _ => true
  | _ => false

/- Score and kill accounting relative to the killed events of an
   event list: the score grows by the archetype points of each killed
   enemy, the kill count by one per killed enemy, and the
   boss-defeated callback count equals the number of killed bosses. -/

def accOk (s0 k0 s1 k1 : Nat) (evs : List Event) : Prop :=
  s1 = s0 + ((killedTypes evs).map getPointsForEnemy).sum ∧
  k1 = k0 + (killedTypes evs).length ∧
  bossDefeatedCount evs = (killedTypes evs).countP fun t => decide (t = EnemyType.BOSS)

/- Theorems -/

theorem bossAfter_succ (n : Nat) :
    bossAfter (n + 1) = (bossTakeDamage (bossAfter n)).1 := rfl

/-- Claim C1: the claim states that the Boss phase only ever advances
(1 to 2 to 3) and never becomes smaller in a later state, and that
once phase 3 is reached no subsequent takeDamage sets it back to 2.
The code violates this: starting from phase 1 and health 20, after 14
takeDamage calls the Boss is at health 6 (30 percent) in phase 3, and
the 15th call, at health 5 (25 percent, at most 33 percent), takes
the second branch (healthPercent at most 0.66 and phase not 2) and
sets the phase back to 2. -/
theorem boss_phase_regression_on_15th_hit :
    (bossAfter 14).phase = 3 ∧ (bossAfter 14).health = 6 ∧
    (bossAfter 15).phase = 2 ∧ (bossAfter 15).health = 5 ∧
    ((bossAfter 15).health : ℚ) / (BOSS_HEALTH : ℚ) ≤ 0.33 := by
  have step : ∀ (n : Nat) (b : BossState), bossAfter n = b →
      bossAfter (n + 1) = (bossTakeDamage b).1 := by
    intro n b hb
    rw [bossAfter_succ, hb]
  have h0 : bossAfter 0 = { health := 20, phase := 1, speed := 60 } := by
    norm_num [bossAfter, bossInit, BOSS_HEALTH, BOSS_SPEED]
  have h1 := step 0 _ h0
  norm_num [bossTakeDamage, BOSS_HEALTH, BOSS_SPEED] at h1
  have h2 := step 1 _ h1
  norm_num [bossTakeDamage, BOSS_HEALTH, BOSS_SPEED] at h2
  have h3 := step 2 _ h2
  norm_num [bossTakeDamage, BOSS_HEALTH, BOSS_SPEED] at h3
  have h4 := step 3 _ h3
  norm_num [bossTakeDamage, BOSS_HEALTH, BOSS_SPEED] at h4
  have h5 := step 4 _ h4
  norm_num [bossTakeDamage, BOSS_HEALTH, BOSS_SPEED] at h5
  have h6 := step 5 _ h5
  norm_num [bossTakeDamage, BOSS_HEALTH, BOSS_SPEED] at h6
  have h7 := step 6 _ h6
  norm_num [bossTakeDamage, BOSS_HEALTH, BOSS_SPEED] at h7
  have h8 := step 7 _ h7
  norm_num [bossTakeDamage, BOSS_HEALTH, BOSS_SPEED] at h8
  have h9 := step 8 _ h8
  norm_num [bossTakeDamage, BOSS_HEALTH, BOSS_SPEED] at h9
  have h10 := step 9 _ h9
  norm_num [bossTakeDamage, BOSS_HEALTH, BOSS_SPEED] at h10
  have h11 := step 10 _ h10
  norm_num [bossTakeDamage, BOSS_HEALTH, BOSS_SPEED] at h11
  have h12 := step 11 _ h11
  norm_num [bossTakeDamage, BOSS_HEALTH, BOSS_SPEED] at h12
  have h13 := step 12 _ h12
  norm_num [bossTakeDamage, BOSS_HEALTH, BOSS_SPEED] at h13
  have h14 := step 13 _ h13
  norm_num [bossTakeDamage, BOSS_HEALTH, BOSS_SPEED] at h14
  have h15 := step 14 _ h14
  norm_num [bossTakeDamage, BOSS_HEALTH, BOSS_SPEED] at h15
  refine ⟨by rw [h14], by rw [h14], by rw [h15], by rw [h15], ?_⟩
  rw [h15]
  norm_num [BOSS_HEALTH]

/-- Claim C6: the base Enemy.takeDamage decrements health by exactly
one and reports destroyed exactly when the resulting health is at
most zero; from a positive initial health h, the first h - 1 calls
each report false and the h-th call reports true. -/
theorem base_damage_destroy_exactly_at_zero (h : Int) (hpos : 0 < h) :
    (∀ x : Int, takeDamage x = (x - 1, decide (x - 1 ≤ 0))) ∧
    (∀ n : Nat, (n : Int) + 1 < h → destroyedOnCall h n = false) ∧
    destroyedOnCall h (h.toNat - 1) = true := by
  have hafter : ∀ (x : Int) (n : Nat), healthAfter x n = x - n := by
    intro x n
    induction n with
    | zero => simp [healthAfter]
    | succ m ih =>
      simp only [healthAfter, takeDamage, ih]
      push_cast
      ring
  refine ⟨fun x => rfl, ?_, ?_⟩
  · intro n hn
    simp only [destroyedOnCall, takeDamage, hafter]
    simp only [decide_eq_false_iff_not, not_le]
    omega
  · simp only [destroyedOnCall, takeDamage, hafter]
    simp only [decide_eq_true_eq]
    omega

/-- Claim C6 witness: with initial health 3, the first two calls
report false and the third reports true. -/
theorem base_damage_destroy_exactly_at_zero_witness :
    destroyedOnCall 3 0 = false ∧ destroyedOnCall 3 1 = false ∧
    destroyedOnCall 3 2 = true := by
  have h := base_damage_destroy_exactly_at_zero 3 (by norm_num)
  refine ⟨h.2.1 0 (by norm_num), h.2.1 1 (by norm_num), ?_⟩
  have := h.2.2
  norm_num at this
  exact this

/-- Claim C7: after an enemy-spawn event the installed spawn interval
is max(400, 1200 - progress/10) milliseconds; it is 1200 at progress
0, exactly 400 at progress 8000, and never below 400 for nonnegative
progress. -/
theorem enemy_spawn_interval_formula (st : SpawnState) (time mapProgress : ℚ)
    (hspawn : shouldSpawn st time = true) (_hp : 0 ≤ mapProgress) :
    (spawnUpdate st time mapProgress).enemySpawnRate =
      max 400 (1200 - mapProgress / 10) ∧
    newEnemySpawnRate 0 = 1200 ∧
    newEnemySpawnRate 8000 = 400 ∧
    400 ≤ newEnemySpawnRate mapProgress := by
  refine ⟨?_, ?_, ?_, ?_⟩
  · simp only [spawnUpdate, hspawn, if_true]
    split <;>
      simp [newEnemySpawnRate, ENEMY_SPAWN_RATE_MIN, ENEMY_SPAWN_RATE_INITIAL]
  · simp only [newEnemySpawnRate, ENEMY_SPAWN_RATE_MIN, ENEMY_SPAWN_RATE_INITIAL]
    rw [max_eq_right] <;> norm_num
  · simp only [newEnemySpawnRate, ENEMY_SPAWN_RATE_MIN, ENEMY_SPAWN_RATE_INITIAL]
    rw [max_eq_right] <;> norm_num
  · simp only [newEnemySpawnRate, ENEMY_SPAWN_RATE_MIN, ENEMY_SPAWN_RATE_INITIAL]
    exact le_max_left _ _

/-- Claim C7 witness: from the initial spawn state at time 2000 and
progress 5, a spawn event occurs and the interval facts hold. -/
theorem enemy_spawn_interval_formula_witness :
    shouldSpawn spawnInit 2000 = true ∧
    (spawnUpdate spawnInit 2000 5).enemySpawnRate = max 400 (1200 - 5 / 10) ∧
    (400 : ℚ) ≤ newEnemySpawnRate 5 := by
  have hs : shouldSpawn spawnInit 2000 = true := by
    simp only [shouldSpawn, spawnInit, ENEMY_SPAWN_RATE_INITIAL, decide_eq_true_eq]
    norm_num
  have h := enemy_spawn_interval_formula spawnInit 2000 5 hs (by norm_num)
  exact ⟨hs, h.1, h.2.2.2⟩

set_option maxHeartbeats 1600000 in
/-- Claim C8: createRandomEnemy selects the archetype from one
uniform draw against cumulative progress-gated thresholds exactly as
the spec table states (60/25/15, then 40/20/15/15/10, then
30/15/15/15/10/10/5, then 25/10/10/15/10/15/10/5), and a higher-tier
archetype is never produced below the progress threshold of its
band. -/
theorem spawn_table_matches_spec (mapProgress roll : ℚ) :
    createRandomEnemy mapProgress roll = specSpawnTable mapProgress roll ∧
    (createRandomEnemy mapProgress roll = .BOSS → 300 ≤ mapProgress) ∧
    (createRandomEnemy mapProgress roll = .BUNKER → 200 ≤ mapProgress) ∧
    (createRandomEnemy mapProgress roll = .ROCKET_LAUNCHER → 200 ≤ mapProgress) ∧
    (createRandomEnemy mapProgress roll = .KNIFE_SOLDIER → 100 ≤ mapProgress) ∧
    (createRandomEnemy mapProgress roll = .COVERED_SOLDIER → 100 ≤ mapProgress) := by
  constructor
  · unfold createRandomEnemy specSpawnTable
    simp only [show (60:ℚ)/100 = 0.60 from by norm_num,
      show (25:ℚ)/100 = 0.25 from by norm_num,
      show (40:ℚ)/100 = 0.40 from by norm_num,
      show (20:ℚ)/100 = 0.20 from by norm_num,
      show (15:ℚ)/100 = 0.15 from by norm_num,
      show (30:ℚ)/100 = 0.30 from by norm_num,
      show (10:ℚ)/100 = 0.10 from by norm_num]
    simp only [show (0.60:ℚ) + 0.25 = 0.85 from by norm_num,
      show (0.40:ℚ) + 0.20 = 0.60 from by norm_num,
      show (0.60:ℚ) + 0.15 = 0.75 from by norm_num,
      show (0.75:ℚ) + 0.15 = 0.90 from by norm_num,
      show (0.30:ℚ) + 0.15 = 0.45 from by norm_num,
      show (0.45:ℚ) + 0.15 = 0.60 from by norm_num,
      show (0.75:ℚ) + 0.10 = 0.85 from by norm_num,
      show (0.85:ℚ) + 0.10 = 0.95 from by norm_num,
      show (0.25:ℚ) + 0.10 = 0.35 from by norm_num,
      show (0.35:ℚ) + 0.10 = 0.45 from by norm_num,
      show (0.60:ℚ) + 0.10 = 0.70 from by norm_num,
      show (0.70:ℚ) + 0.15 = 0.85 from by norm_num]
  · unfold createRandomEnemy
    split_ifs <;>
      refine ⟨fun h => ?_, fun h => ?_, fun h => ?_, fun h => ?_, fun h => ?_⟩ <;>
      try cases h
    all_goals linarith

/-- Claim C8 witness: at progress 350 and roll 0.97 the draw yields a
Boss, which is consistent with the spec table and the gating bound. -/
theorem spawn_table_matches_spec_witness :
    createRandomEnemy 350 0.97 = specSpawnTable 350 0.97 ∧ (300 : ℚ) ≤ 350 := by
  have h := spawn_table_matches_spec 350 0.97
  refine ⟨h.1, h.2.1 ?_⟩
  unfold createRandomEnemy
  norm_num

/-- Claim C9: a level is reported complete exactly when every one of
its objectives is satisfied by the inputs (kills, distance and
boss-defeated objectives; the source objective lists contain no
survive objectives), a strict subset being insufficient; on
completion the level index is added to levelsCompleted only when not
already present, score and kills are accumulated into the campaign
totals, and the current-level pointer advances exactly when a next
level exists. -/
theorem level_complete_iff_all_objectives :
    (∀ (objs : List LevelObjective) (kills distance : Int) (bossDefeated : Bool),
      (∀ o ∈ objs, o.otype ≠ .survive) →
      (areObjectivesComplete objs kills distance bossDefeated = true ↔
        ∀ o ∈ objs, specObjectiveSatisfied o kills distance bossDefeated)) ∧
    (∀ (cl : Nat) (stored : LevelProgress) (score kills : Int),
      (cl ∈ stored.levelsCompleted →
        ((completeLevel cl stored score kills).2).levelsCompleted =
          stored.levelsCompleted) ∧
      (cl ∉ stored.levelsCompleted →
        ((completeLevel cl stored score kills).2).levelsCompleted =
          stored.levelsCompleted ++ [cl]) ∧
      ((completeLevel cl stored score kills).2).totalScore =
        stored.totalScore + score ∧
      ((completeLevel cl stored score kills).2).totalKills =
        stored.totalKills + kills ∧
      (levelsHas (cl + 1) = true →
        (completeLevel cl stored score kills).1 = cl + 1) ∧
      (levelsHas (cl + 1) = false →
        (completeLevel cl stored score kills).1 = cl)) := by
  constructor
  · intro objs kills distance bossDefeated hsv
    simp only [areObjectivesComplete, List.all_eq_true]
    constructor
    · intro h o ho
      have hp := h o ho
      have hs := hsv o ho
      rcases o with ⟨ot, t, c⟩
      cases ot <;>
        simp_all [objectivePasses, specObjectiveSatisfied]
    · intro h o ho
      have hp := h o ho
      rcases o with ⟨ot, t, c⟩
      cases ot <;>
        simp_all [objectivePasses, specObjectiveSatisfied]
  · intro cl stored score kills
    refine ⟨fun hin => ?_, fun hout => ?_, ?_, ?_, fun hnext => ?_, fun hlast => ?_⟩ <;>
      simp only [completeLevel] <;>
      split <;>
      simp_all

/-- Claim C9 witness: with the two level-1 objectives (distance 300,
kills 15) satisfied at kills 15 and distance 300, completion is
reported, and completing level 1 from a fresh campaign record adds
the index, accumulates the totals and advances to level 2. -/
theorem level_complete_iff_all_objectives_witness :
    areObjectivesComplete
      [{ otype := .distance, target := 300, completed := false },
       { otype := .kills, target := 15, completed := false }] 15 300 false = true ∧
    (completeLevel 1
      { currentLevel := 1, levelsCompleted := [], totalScore := 0, totalKills := 0 }
      5000 15).1 = 2 ∧
    (completeLevel 1
      { currentLevel := 1, levelsCompleted := [], totalScore := 0, totalKills := 0 }
      5000 15).2.levelsCompleted = [1] := by
  have h := level_complete_iff_all_objectives
  refine ⟨?_, ?_, ?_⟩
  · exact (h.1 _ 15 300 false (by decide)).mpr (by
      intro o ho
      fin_cases ho <;> simp [specObjectiveSatisfied])
  · exact (h.2 1 _ 5000 15).2.2.2.2.1 (by decide)
  · have := (h.2 1
      { currentLevel := 1, levelsCompleted := [], totalScore := 0, totalKills := 0 }
      5000 15).2.1 (by decide)
    simpa using this

/-- Claim C10: throwGrenade decrements the count by exactly one only
when the count is positive and the cooldown has elapsed and otherwise
returns null leaving the state unchanged; and from the initial count
of 10, any sequence of throwGrenade and addGrenades calls with
nonnegative added counts keeps the count nonnegative. -/
theorem grenade_count_nonneg :
    (∀ (st : PlayerGrenades) (time : ℚ),
      (0 < st.grenadeCount ∧ st.lastGrenadeThrow + grenadeThrowRate < time →
        throwGrenade st time =
          ({ grenadeCount := st.grenadeCount - 1, lastGrenadeThrow := time }, true)) ∧
      (¬(0 < st.grenadeCount ∧ st.lastGrenadeThrow + grenadeThrowRate < time) →
        throwGrenade st time = (st, false))) ∧
    (∀ ops : List GrenadeOp, (∀ n : Int, GrenadeOp.addPack n ∈ ops → 0 ≤ n) →
      0 ≤ (runGrenadeOps playerInitGrenades ops).grenadeCount) := by
  have hstep : ∀ (ops : List GrenadeOp) (st : PlayerGrenades),
      (∀ n : Int, GrenadeOp.addPack n ∈ ops → 0 ≤ n) →
      0 ≤ st.grenadeCount → 0 ≤ (runGrenadeOps st ops).grenadeCount := by
    intro ops
    induction ops with
    | nil => intro st _ h0; simpa [runGrenadeOps] using h0
    | cons op rest ih =>
      intro st hadd h0
      cases op with
      | throwAt t =>
        simp only [runGrenadeOps]
        apply ih
        · intro n hn; exact hadd n (List.mem_cons_of_mem _ hn)
        · simp only [throwGrenade]
          split
          · rename_i hcond
            simp only
            omega
          · exact h0
      | addPack n =>
        simp only [runGrenadeOps]
        apply ih
        · intro m hm; exact hadd m (List.mem_cons_of_mem _ hm)
        · have hn : 0 ≤ n := hadd n (List.mem_cons_self _ _)
          simp only [addGrenades]
          omega
  refine ⟨?_, ?_⟩
  · intro st time
    constructor
    · intro hc
      simp [throwGrenade, hc]
    · intro hc
      simp [throwGrenade, hc]
  · intro ops hadd
    exact hstep ops playerInitGrenades hadd (by norm_num [playerInitGrenades, GRENADE_INITIAL_COUNT])

/-- Claim C10 witness: a throw at time 500 succeeds from the initial
state, and a concrete sequence of throws and a pack pickup keeps the
count nonnegative. -/
theorem grenade_count_nonneg_witness :
    throwGrenade playerInitGrenades 500 =
      ({ grenadeCount := playerInitGrenades.grenadeCount - 1,
         lastGrenadeThrow := 500 }, true) ∧
    0 ≤ (runGrenadeOps playerInitGrenades
      [.throwAt 500, .addPack 5, .throwAt 900]).grenadeCount := by
  have h := grenade_count_nonneg
  constructor
  · refine (h.1 playerInitGrenades 500).1 ?_
    norm_num [playerInitGrenades, GRENADE_INITIAL_COUNT, grenadeThrowRate]
  · refine h.2 _ ?_
    intro n hn
    simp only [List.mem_cons, List.not_mem_nil, or_false] at hn
    rcases hn with h1 | h2 | h3
    · cases h1
    · cases h2; norm_num
    · cases h3

/- Helper lemmas for the collision engine. -/

theorem damageCountFrom_append (src : DmgSource) (a b : List Event) :
    damageCountFrom src (a ++ b) = damageCountFrom src a + damageCountFrom src b :=
  List.countP_append _ _ _

theorem damageCountTo_append (eid : Nat) (a b : List Event) :
    damageCountTo eid (a ++ b) = damageCountTo eid a + damageCountTo eid b :=
  List.countP_append _ _ _

theorem damageCountFrom_killEvents (src src2 : DmgSource) (e : EnemyE) (s k : Nat) :
    damageCountFrom src (killEvents src2 e s k) = 0 := by
  by_cases hb : e.etype = EnemyType.BOSS <;>
    simp [killEvents, damageCountFrom, isDamageFrom, hb]

theorem damageCountTo_killEvents (eid : Nat) (src2 : DmgSource) (e : EnemyE) (s k : Nat) :
    damageCountTo eid (killEvents src2 e s k) = 0 := by
  by_cases hb : e.etype = EnemyType.BOSS <;>
    simp [killEvents, damageCountTo, isDamageTo, hb]

theorem killEvents_not_gameOver_not_power (src : DmgSource) (e : EnemyE) (s k : Nat) :
    ∀ ev ∈ killEvents src e s k, isPowerEvent ev = false ∧ ev ≠ Event.gameOver := by
  by_cases hb : e.etype = EnemyType.BOSS <;>
    simp [killEvents, isPowerEvent, hb]

theorem scanEnemies_none_or_some (ov : BulletE → EnemyE → Bool)
    (dmg : EnemyE → EnemyE × Bool) (b : BulletE) (s k : Nat) (es : List EnemyE) :
    scanEnemies ov dmg b s k es = none ∨
    ∃ out, scanEnemies ov dmg b s k es = some out := by
  cases h : scanEnemies ov dmg b s k es
  · exact Or.inl rfl
  · exact Or.inr ⟨_, rfl⟩

theorem scanEnemies_count (ov : BulletE → EnemyE → Bool)
    (dmg : EnemyE → EnemyE × Bool) (b : BulletE) (s k : Nat) (es : List EnemyE)
    (out : List EnemyE × Nat × Nat × List Event)
    (h : scanEnemies ov dmg b s k es = some out) (src : DmgSource) :
    damageCountFrom src out.2.2.2 =
      if src = DmgSource.bullet b.id then 1 else 0 := by
  induction es generalizing out with
  | nil => simp [scanEnemies] at h
  | cons e rest ih =>
    rw [scanEnemies] at h
    cases hrec : scanEnemies ov dmg b s k rest with
    | some o =>
      rw [hrec] at h
      simp only [Option.some.injEq] at h
      subst h
      simpa using ih o hrec
    | none =>
      rw [hrec] at h
      by_cases ho : ov b e
      · rw [if_pos ho] at h
        by_cases hd : (dmg e).2 = true
        · simp only [hd, if_true, Option.some.injEq] at h
          subst h
          simp only [damageCountFrom, List.countP_cons, isDamageFrom]
          have hk := damageCountFrom_killEvents src (DmgSource.bullet b.id) e s k
          simp only [damageCountFrom] at hk
          rw [hk]
          by_cases hs : src = DmgSource.bullet b.id
          · subst hs; simp
          · simp [hs, Ne.symm hs]
        · simp only [Bool.not_eq_true] at hd
          simp only [hd, Bool.false_eq_true, if_false, Option.some.injEq] at h
          subst h
          simp only [damageCountFrom, List.countP_cons, List.countP_nil,
            isDamageFrom]
          by_cases hs : src = DmgSource.bullet b.id
          · subst hs; simp
          · simp [hs, Ne.symm hs]
      · rw [if_neg ho] at h
        cases h

theorem killedTypes_append (a b : List Event) :
    killedTypes (a ++ b) = killedTypes a ++ killedTypes b :=
  List.filterMap_append _ _ _

theorem bossDefeatedCount_append (a b : List Event) :
    bossDefeatedCount (a ++ b) = bossDefeatedCount a + bossDefeatedCount b :=
  List.countP_append _ _ _

theorem accOk_nil (s k : Nat) : accOk s k s k [] := by
  simp [accOk, killedTypes, bossDefeatedCount]

theorem accOk_append (s0 k0 s1 k1 s2 k2 : Nat) (a b : List Event)
    (h1 : accOk s0 k0 s1 k1 a) (h2 : accOk s1 k1 s2 k2 b) :
    accOk s0 k0 s2 k2 (a ++ b) := by
  obtain ⟨ha1, ha2, ha3⟩ := h1
  obtain ⟨hb1, hb2, hb3⟩ := h2
  refine ⟨?_, ?_, ?_⟩
  · rw [killedTypes_append, List.map_append, List.sum_append, hb1, ha1]
    omega
  · rw [killedTypes_append, List.length_append, hb2, ha2]
    omega
  · rw [killedTypes_append, bossDefeatedCount_append, List.countP_append,
      ha3, hb3]

theorem accOk_kill (src src2 : DmgSource) (e : EnemyE) (eid s k : Nat) :
    accOk s k (s + getPointsForEnemy e.etype) (k + 1)
      (Event.damage src2 eid :: killEvents src e s k) := by
  by_cases hb : e.etype = EnemyType.BOSS <;>
    simp [accOk, killEvents, killedTypes, bossDefeatedCount, hb,
      List.countP_cons]

theorem accOk_damage_only (src : DmgSource) (eid s k : Nat) :
    accOk s k s k [Event.damage src eid] := by
  simp [accOk, killedTypes, bossDefeatedCount]

theorem scanEnemies_acc (ov : BulletE → EnemyE → Bool)
    (dmg : EnemyE → EnemyE × Bool) (b : BulletE) (s k : Nat) (es : List EnemyE)
    (out : List EnemyE × Nat × Nat × List Event)
    (h : scanEnemies ov dmg b s k es = some out) :
    accOk s k out.2.1 out.2.2.1 out.2.2.2 := by
  induction es generalizing out with
  | nil => simp [scanEnemies] at h
  | cons e rest ih =>
    rw [scanEnemies] at h
    cases hrec : scanEnemies ov dmg b s k rest with
    | some o =>
      rw [hrec] at h
      simp only [Option.some.injEq] at h
      subst h
      simpa using ih o hrec
    | none =>
      rw [hrec] at h
      by_cases ho : ov b e
      · rw [if_pos ho] at h
        by_cases hd : (dmg e).2 = true
        · simp only [hd, if_true, Option.some.injEq] at h
          subst h
          exact accOk_kill _ _ _ _ _ _
        · simp only [Bool.not_eq_true] at hd
          simp only [hd, Bool.false_eq_true, if_false, Option.some.injEq] at h
          subst h
          exact accOk_damage_only _ _ _ _
      · rw [if_neg ho] at h
        cases h

theorem scanEnemies_events_shape (ov : BulletE → EnemyE → Bool)
    (dmg : EnemyE → EnemyE × Bool) (b : BulletE) (s k : Nat) (es : List EnemyE)
    (out : List EnemyE × Nat × Nat × List Event)
    (h : scanEnemies ov dmg b s k es = some out) :
    ∀ ev ∈ out.2.2.2, isPowerEvent ev = false ∧ ev ≠ Event.gameOver := by
  induction es generalizing out with
  | nil => simp [scanEnemies] at h
  | cons e rest ih =>
    rw [scanEnemies] at h
    cases hrec : scanEnemies ov dmg b s k rest with
    | some o =>
      rw [hrec] at h
      simp only [Option.some.injEq] at h
      subst h
      simpa using ih o hrec
    | none =>
      rw [hrec] at h
      by_cases ho : ov b e
      · rw [if_pos ho] at h
        by_cases hd : (dmg e).2 = true
        · simp only [hd, if_true, Option.some.injEq] at h
          subst h
          intro ev hev
          simp only [List.mem_cons] at hev
          rcases hev with rfl | hev
          · simp [isPowerEvent]
          · exact killEvents_not_gameOver_not_power _ _ _ _ ev hev
        · simp only [Bool.not_eq_true] at hd
          simp only [hd, Bool.false_eq_true, if_false, Option.some.injEq] at h
          subst h
          intro ev hev
          simp only [List.mem_cons, List.not_mem_nil, or_false] at hev
          subst hev
          simp [isPowerEvent]
      · rw [if_neg ho] at h
        cases h

theorem bulletLoop_src_zero (ov : BulletE → EnemyE → Bool)
    (dmg : EnemyE → EnemyE × Bool) (bs : List BulletE) (es : List EnemyE)
    (s k : Nat) (src : DmgSource) :
    (∀ b ∈ bs, src ≠ DmgSource.bullet b.id) →
    damageCountFrom src (bulletLoop ov dmg bs es s k).2.2.2.2 = 0 := by
  induction bs generalizing es s k with
  | nil => intro _; simp [bulletLoop, damageCountFrom]
  | cons b rest ih =>
    intro hsrc
    simp only [bulletLoop]
    rcases hbl : bulletLoop ov dmg rest es s k with ⟨bs1, es1, s1, k1, evs1⟩
    have h1 : damageCountFrom src evs1 = 0 := by
      have h := ih es s k fun x hx => hsrc x (List.mem_cons_of_mem _ hx)
      rw [hbl] at h
      exact h
    cases hscan : scanEnemies ov dmg b s1 k1 es1 with
    | none => simpa using h1
    | some o =>
      rcases o with ⟨es2, s2, k2, evs2⟩
      have h2 := scanEnemies_count ov dmg b s1 k1 es1 _ hscan src
      simp only at h2
      rw [if_neg (hsrc b (List.mem_cons_self _ _))] at h2
      simp [damageCountFrom_append, h1, h2]

theorem bulletLoop_ids_subset (ov : BulletE → EnemyE → Bool)
    (dmg : EnemyE → EnemyE × Bool) (bs : List BulletE) (es : List EnemyE)
    (s k : Nat) (bid : Nat) :
    bid ∈ (bulletLoop ov dmg bs es s k).1.map BulletE.id →
    bid ∈ bs.map BulletE.id := by
  induction bs generalizing es s k with
  | nil => intro h; simpa [bulletLoop] using h
  | cons b rest ih =>
    intro hmem
    simp only [bulletLoop] at hmem
    rcases hbl : bulletLoop ov dmg rest es s k with ⟨bs1, es1, s1, k1, evs1⟩
    rw [hbl] at hmem
    have hsub : bid ∈ bs1.map BulletE.id → bid ∈ rest.map BulletE.id := by
      intro hx
      have h := ih es s k
      rw [hbl] at h
      exact h hx
    cases hscan : scanEnemies ov dmg b s1 k1 es1 with
    | none =>
      rw [hscan] at hmem
      simp only [List.map_cons, List.mem_cons] at hmem ⊢
      rcases hmem with h | h
      · exact Or.inl h
      · exact Or.inr (by simpa using hsub (by simpa using h))
    | some o =>
      rcases o with ⟨es2, s2, k2, evs2⟩
      rw [hscan] at hmem
      simp only [List.map_cons, List.mem_cons]
      exact Or.inr (by simpa using hsub (by simpa using hmem))

theorem bulletLoop_per_bullet (ov : BulletE → EnemyE → Bool)
    (dmg : EnemyE → EnemyE × Bool) (bs : List BulletE) (es : List EnemyE)
    (s k : Nat) :
    (bs.map BulletE.id).Nodup →
    ∀ b ∈ bs,
      damageCountFrom (DmgSource.bullet b.id) (bulletLoop ov dmg bs es s k).2.2.2.2 =
        if b.id ∈ (bulletLoop ov dmg bs es s k).1.map BulletE.id then 0 else 1 := by
  induction bs generalizing es s k with
  | nil => intro _ b hb; cases hb
  | cons b0 rest ih =>
    intro hnd b hb
    have hnd' := hnd
    rw [List.map_cons, List.nodup_cons] at hnd'
    obtain ⟨hnd0, hndr⟩ := hnd'
    rcases hbl : bulletLoop ov dmg rest es s k with ⟨bs1, es1, s1, k1, evs1⟩
    simp only [bulletLoop, hbl]
    have hsub : ∀ x, x ∈ bs1.map BulletE.id → x ∈ rest.map BulletE.id := by
      intro x hx
      have h := bulletLoop_ids_subset ov dmg rest es s k x
      rw [hbl] at h
      exact h hx
    rcases List.mem_cons.mp hb with rfl | hbr
    · -- the head bullet, processed last
      have h1 : damageCountFrom (DmgSource.bullet b.id) evs1 = 0 := by
        have h := bulletLoop_src_zero ov dmg rest es s k (DmgSource.bullet b.id)
          fun x hx heq => hnd0 (by
            simp only [List.mem_map]
            exact ⟨x, hx, (DmgSource.bullet.injEq _ _).mp heq.symm⟩)
        rw [hbl] at h
        exact h
      cases hscan : scanEnemies ov dmg b s1 k1 es1 with
      | none =>
        simp only [List.map_cons, List.mem_cons]
        simpa [h1] using Or.inl rfl
      | some o =>
        rcases o with ⟨es2, s2, k2, evs2⟩
        have h2 := scanEnemies_count ov dmg b s1 k1 es1 _ hscan (DmgSource.bullet b.id)
        simp only [if_pos rfl] at h2
        have hnotmem : b.id ∉ bs1.map BulletE.id := fun hx => hnd0 (hsub _ hx)
        simp [damageCountFrom_append, h1, h2, hnotmem]
    · -- a bullet of the tail
      have hbid : b.id ≠ b0.id := by
        intro heq
        exact hnd0 (by
          simp only [List.mem_map]
          exact ⟨b, hbr, heq⟩)
      have h1 := ih es s k hndr b hbr
      rw [hbl] at h1
      simp only at h1
      cases hscan : scanEnemies ov dmg b0 s1 k1 es1 with
      | none =>
        simp only [List.map_cons, List.mem_cons]
        simpa [hbid] using h1
      | some o =>
        rcases o with ⟨es2, s2, k2, evs2⟩
        have h2 := scanEnemies_count ov dmg b0 s1 k1 es1 _ hscan (DmgSource.bullet b.id)
        simp only at h2
        rw [if_neg (by simpa using fun heq => hbid (by simpa using heq))] at h2
        simp [damageCountFrom_append, h1, h2]

theorem grenadeScan_src_zero (dmg : EnemyE → EnemyE × Bool) (g : GrenadeE)
    (es : List EnemyE) (s k : Nat) (src : DmgSource)
    (hsrc : src ≠ DmgSource.grenade g.id) :
    damageCountFrom src (grenadeScan dmg g es s k).2.2.2 = 0 := by
  induction es generalizing s k with
  | nil => simp [grenadeScan, damageCountFrom]
  | cons e rest ih =>
    rcases hgs : grenadeScan dmg g rest s k with ⟨rest1, s1, k1, evs1⟩
    have h1 : damageCountFrom src evs1 = 0 := by
      have h := ih s k
      rw [hgs] at h
      exact h
    simp only [grenadeScan, hgs]
    by_cases hw : withinRadius g e
    · simp only [hw, if_true]
      by_cases hd : (dmg e).2 = true
      · simp only [hd, if_true]
        have hk := damageCountFrom_killEvents src (DmgSource.grenade g.id) e s1 k1
        simp only [damageCountFrom] at hk h1 ⊢
        simp [List.countP_append, List.countP_cons, isDamageFrom, h1, hk,
          Ne.symm hsrc]
      · simp only [Bool.not_eq_true] at hd
        simp only [hd, Bool.false_eq_true, if_false]
        simp only [damageCountFrom, List.countP_append, List.countP_cons,
          List.countP_nil, isDamageFrom] at h1 ⊢
        simp [h1, Ne.symm hsrc]
    · simp only [hw, if_false]
      simpa using h1

theorem grenadeScan_target_zero (dmg : EnemyE → EnemyE × Bool) (g : GrenadeE)
    (es : List EnemyE) (s k : Nat) (eid : Nat) :
    eid ∉ es.map EnemyE.id →
    damageCountTo eid (grenadeScan dmg g es s k).2.2.2 = 0 := by
  induction es generalizing s k with
  | nil => intro _; simp [grenadeScan, damageCountTo]
  | cons e rest ih =>
    intro hout
    have hne : e.id ≠ eid := by
      intro heq
      refine hout ?_
      rw [List.map_cons, ← heq]
      exact List.mem_cons_self _ _
    have hrest : eid ∉ rest.map EnemyE.id := by
      intro hx
      exact hout (by rw [List.map_cons]; exact List.mem_cons_of_mem _ hx)
    rcases hgs : grenadeScan dmg g rest s k with ⟨rest1, s1, k1, evs1⟩
    have h1 : damageCountTo eid evs1 = 0 := by
      have h := ih s k hrest
      rw [hgs] at h
      exact h
    simp only [grenadeScan, hgs]
    by_cases hw : withinRadius g e
    · simp only [hw, if_true]
      by_cases hd : (dmg e).2 = true
      · simp only [hd, if_true]
        have hk := damageCountTo_killEvents eid (DmgSource.grenade g.id) e s1 k1
        simp only [damageCountTo] at hk h1 ⊢
        simp [List.countP_append, List.countP_cons, isDamageTo, h1, hk, hne]
      · simp only [Bool.not_eq_true] at hd
        simp only [hd, Bool.false_eq_true, if_false]
        simp only [damageCountTo, List.countP_append, List.countP_cons,
          List.countP_nil, isDamageTo] at h1 ⊢
        simp [h1, hne]
    · simp only [hw, if_false]
      simpa using h1

theorem grenadeScan_per_enemy (dmg : EnemyE → EnemyE × Bool) (g : GrenadeE)
    (es : List EnemyE) (s k : Nat) :
    (es.map EnemyE.id).Nodup →
    ∀ e ∈ es,
      damageCountTo e.id (grenadeScan dmg g es s k).2.2.2 =
        if withinRadius g e then 1 else 0 := by
  induction es generalizing s k with
  | nil => intro _ e he; cases he
  | cons e0 rest ih =>
    intro hnd e he
    have hnd' := hnd
    rw [List.map_cons, List.nodup_cons] at hnd'
    obtain ⟨hnd0, hndr⟩ := hnd'
    rcases hgs : grenadeScan dmg g rest s k with ⟨rest1, s1, k1, evs1⟩
    simp only [grenadeScan, hgs]
    rcases List.mem_cons.mp he with rfl | her
    · -- the head enemy, processed last
      have h1 : damageCountTo e.id evs1 = 0 := by
        have h := grenadeScan_target_zero dmg g rest s k e.id hnd0
        rw [hgs] at h
        exact h
      by_cases hw : withinRadius g e
      · simp only [hw, if_true]
        by_cases hd : (dmg e).2 = true
        · simp only [hd, if_true]
          have hk := damageCountTo_killEvents e.id (DmgSource.grenade g.id) e s1 k1
          simp only [damageCountTo] at hk h1 ⊢
          simp [List.countP_append, List.countP_cons, isDamageTo, h1, hk]
        · simp only [Bool.not_eq_true] at hd
          simp only [hd, Bool.false_eq_true, if_false]
          simp only [damageCountTo, List.countP_append, List.countP_cons,
            List.countP_nil, isDamageTo] at h1 ⊢
          simp [h1]
      · simp only [hw, if_false]
        simpa [hw] using h1
    · -- an enemy of the tail
      have hne : e0.id ≠ e.id := by
        intro heq
        exact hnd0 (by simp only [List.mem_map]; exact ⟨e, her, heq.symm⟩)
      have h1 := ih s k hndr e her
      rw [hgs] at h1
      simp only at h1
      by_cases hw0 : withinRadius g e0
      · simp only [hw0, if_true]
        by_cases hd : (dmg e0).2 = true
        · simp only [hd, if_true]
          have hk := damageCountTo_killEvents e.id (DmgSource.grenade g.id) e0 s1 k1
          simp only [damageCountTo] at hk h1 ⊢
          simp [List.countP_append, List.countP_cons, isDamageTo, h1, hk, hne]
        · simp only [Bool.not_eq_true] at hd
          simp only [hd, Bool.false_eq_true, if_false]
          simp only [damageCountTo, List.countP_append, List.countP_cons,
            List.countP_nil, isDamageTo] at h1 ⊢
          simp [h1, hne]
      · simp only [hw0, if_false]
        simpa using h1

theorem grenadeScan_acc (dmg : EnemyE → EnemyE × Bool) (g : GrenadeE)
    (es : List EnemyE) (s k : Nat) :
    accOk s k (grenadeScan dmg g es s k).2.1 (grenadeScan dmg g es s k).2.2.1
      (grenadeScan dmg g es s k).2.2.2 := by
  induction es generalizing s k with
  | nil => simpa [grenadeScan] using accOk_nil s k
  | cons e rest ih =>
    rcases hgs : grenadeScan dmg g rest s k with ⟨rest1, s1, k1, evs1⟩
    have h1 : accOk s k s1 k1 evs1 := by
      have h := ih s k
      rw [hgs] at h
      exact h
    simp only [grenadeScan, hgs]
    by_cases hw : withinRadius g e
    · simp only [hw, if_true]
      by_cases hd : (dmg e).2 = true
      · simp only [hd, if_true]
        exact accOk_append _ _ _ _ _ _ _ _ h1 (accOk_kill _ _ _ _ _ _)
      · simp only [Bool.not_eq_true] at hd
        simp only [hd, Bool.false_eq_true, if_false]
        exact accOk_append _ _ _ _ _ _ _ _ h1 (accOk_damage_only _ _ _ _)
    · simp only [hw, if_false]
      simpa using h1

theorem grenadeScan_events_shape (dmg : EnemyE → EnemyE × Bool) (g : GrenadeE)
    (es : List EnemyE) (s k : Nat) :
    ∀ ev ∈ (grenadeScan dmg g es s k).2.2.2,
      isPowerEvent ev = false ∧ ev ≠ Event.gameOver := by
  induction es generalizing s k with
  | nil => simp [grenadeScan]
  | cons e rest ih =>
    rcases hgs : grenadeScan dmg g rest s k with ⟨rest1, s1, k1, evs1⟩
    have h1 : ∀ ev ∈ evs1, isPowerEvent ev = false ∧ ev ≠ Event.gameOver := by
      have h := ih s k
      rw [hgs] at h
      exact h
    simp only [grenadeScan, hgs]
    by_cases hw : withinRadius g e
    · simp only [hw, if_true]
      by_cases hd : (dmg e).2 = true
      · simp only [hd, if_true]
        intro ev hev
        simp only [List.mem_append, List.mem_cons] at hev
        rcases hev with hev | rfl | hev
        · exact h1 ev hev
        · simp [isPowerEvent]
        · exact killEvents_not_gameOver_not_power _ _ _ _ ev hev
      · simp only [Bool.not_eq_true] at hd
        simp only [hd, Bool.false_eq_true, if_false]
        intro ev hev
        simp only [List.mem_append, List.mem_cons, List.not_mem_nil,
          or_false] at hev
        rcases hev with hev | rfl
        · exact h1 ev hev
        · simp [isPowerEvent]
    · simp only [hw, if_false]
      simpa using h1

theorem bulletLoop_acc (ov : BulletE → EnemyE → Bool)
    (dmg : EnemyE → EnemyE × Bool) (bs : List BulletE) (es : List EnemyE)
    (s k : Nat) :
    accOk s k (bulletLoop ov dmg bs es s k).2.2.1
      (bulletLoop ov dmg bs es s k).2.2.2.1
      (bulletLoop ov dmg bs es s k).2.2.2.2 := by
  induction bs generalizing es s k with
  | nil => simpa [bulletLoop] using accOk_nil s k
  | cons b rest ih =>
    rcases hbl : bulletLoop ov dmg rest es s k with ⟨bs1, es1, s1, k1, evs1⟩
    have h1 : accOk s k s1 k1 evs1 := by
      have h := ih es s k
      rw [hbl] at h
      exact h
    simp only [bulletLoop, hbl]
    cases hscan : scanEnemies ov dmg b s1 k1 es1 with
    | none => simpa using h1
    | some o =>
      rcases o with ⟨es2, s2, k2, evs2⟩
      have h2 := scanEnemies_acc ov dmg b s1 k1 es1 _ hscan
      simp only at h2
      exact accOk_append _ _ _ _ _ _ _ _ h1 h2

theorem bulletLoop_events_shape (ov : BulletE → EnemyE → Bool)
    (dmg : EnemyE → EnemyE × Bool) (bs : List BulletE) (es : List EnemyE)
    (s k : Nat) :
    ∀ ev ∈ (bulletLoop ov dmg bs es s k).2.2.2.2,
      isPowerEvent ev = false ∧ ev ≠ Event.gameOver := by
  induction bs generalizing es s k with
  | nil => simp [bulletLoop]
  | cons b rest ih =>
    rcases hbl : bulletLoop ov dmg rest es s k with ⟨bs1, es1, s1, k1, evs1⟩
    have h1 : ∀ ev ∈ evs1, isPowerEvent ev = false ∧ ev ≠ Event.gameOver := by
      have h := ih es s k
      rw [hbl] at h
      exact h
    simp only [bulletLoop, hbl]
    cases hscan : scanEnemies ov dmg b s1 k1 es1 with
    | none => simpa using h1
    | some o =>
      rcases o with ⟨es2, s2, k2, evs2⟩
      have h2 := scanEnemies_events_shape ov dmg b s1 k1 es1 _ hscan
      simp only at h2
      intro ev hev
      simp only [List.mem_append] at hev
      rcases hev with hev | hev
      · exact h1 ev hev
      · exact h2 ev hev

theorem grenadeLoop_src_zero (dmg : EnemyE → EnemyE × Bool)
    (gs : List GrenadeE) (es : List EnemyE) (s k : Nat) (src : DmgSource) :
    (∀ g ∈ gs, src ≠ DmgSource.grenade g.id) →
    damageCountFrom src (grenadeLoop dmg gs es s k).2.2.2 = 0 := by
  induction gs generalizing es s k with
  | nil => intro _; simp [grenadeLoop, damageCountFrom]
  | cons g rest ih =>
    intro hsrc
    rcases hgl : grenadeLoop dmg rest es s k with ⟨es1, s1, k1, evs1⟩
    have h1 : damageCountFrom src evs1 = 0 := by
      have h := ih es s k fun x hx => hsrc x (List.mem_cons_of_mem _ hx)
      rw [hgl] at h
      exact h
    simp only [grenadeLoop, hgl]
    by_cases hx : g.exploded
    · simp only [hx, if_true]
      have h2 := grenadeScan_src_zero dmg g es1 s1 k1 src
        (hsrc g (List.mem_cons_self _ _))
      simp [damageCountFrom_append, h1, h2]
    · simp only [hx, Bool.false_eq_true, if_false]
      simpa using h1

theorem grenadeLoop_unexploded_zero (dmg : EnemyE → EnemyE × Bool)
    (gs : List GrenadeE) (es : List EnemyE) (s k : Nat) :
    (gs.map GrenadeE.id).Nodup →
    ∀ g ∈ gs, g.exploded = false →
    damageCountFrom (DmgSource.grenade g.id) (grenadeLoop dmg gs es s k).2.2.2 = 0 := by
  induction gs generalizing es s k with
  | nil => intro _ g hg; cases hg
  | cons g0 rest ih =>
    intro hnd g hg hexp
    have hnd' := hnd
    rw [List.map_cons, List.nodup_cons] at hnd'
    obtain ⟨hnd0, hndr⟩ := hnd'
    rcases hgl : grenadeLoop dmg rest es s k with ⟨es1, s1, k1, evs1⟩
    simp only [grenadeLoop, hgl]
    rcases List.mem_cons.mp hg with rfl | hgr
    · -- the head grenade itself, unexploded
      have h1 : damageCountFrom (DmgSource.grenade g.id) evs1 = 0 := by
        have h := grenadeLoop_src_zero dmg rest es s k (DmgSource.grenade g.id)
          fun x hx heq => hnd0 (by
            simp only [List.mem_map]
            exact ⟨x, hx, (DmgSource.grenade.injEq _ _).mp heq.symm⟩)
        rw [hgl] at h
        exact h
      simp only [hexp, Bool.false_eq_true, if_false]
      simpa using h1
    · -- an unexploded grenade of the tail
      have h1 := ih es s k hndr g hgr hexp
      rw [hgl] at h1
      simp only at h1
      by_cases hx0 : g0.exploded
      · simp only [hx0, if_true]
        have hne : g.id ≠ g0.id := by
          intro heq
          exact hnd0 (by
            simp only [List.mem_map]
            exact ⟨g, hgr, heq⟩)
        have h2 := grenadeScan_src_zero dmg g0 es1 s1 k1
          (DmgSource.grenade g.id)
          (by simpa using fun heq => hne (by simpa using heq))
        simp [damageCountFrom_append, h1, h2]
      · simp only [hx0, Bool.false_eq_true, if_false]
        simpa using h1

theorem grenadeLoop_acc (dmg : EnemyE → EnemyE × Bool)
    (gs : List GrenadeE) (es : List EnemyE) (s k : Nat) :
    accOk s k (grenadeLoop dmg gs es s k).2.1 (grenadeLoop dmg gs es s k).2.2.1
      (grenadeLoop dmg gs es s k).2.2.2 := by
  induction gs generalizing es s k with
  | nil => simpa [grenadeLoop] using accOk_nil s k
  | cons g rest ih =>
    rcases hgl : grenadeLoop dmg rest es s k with ⟨es1, s1, k1, evs1⟩
    have h1 : accOk s k s1 k1 evs1 := by
      have h := ih es s k
      rw [hgl] at h
      exact h
    simp only [grenadeLoop, hgl]
    by_cases hx : g.exploded
    · simp only [hx, if_true]
      have h2 := grenadeScan_acc dmg g es1 s1 k1
      exact accOk_append _ _ _ _ _ _ _ _ h1 h2
    · simp only [hx, Bool.false_eq_true, if_false]
      simpa using h1

theorem grenadeLoop_events_shape (dmg : EnemyE → EnemyE × Bool)
    (gs : List GrenadeE) (es : List EnemyE) (s k : Nat) :
    ∀ ev ∈ (grenadeLoop dmg gs es s k).2.2.2,
      isPowerEvent ev = false ∧ ev ≠ Event.gameOver := by
  induction gs generalizing es s k with
  | nil => simp [grenadeLoop]
  | cons g rest ih =>
    rcases hgl : grenadeLoop dmg rest es s k with ⟨es1, s1, k1, evs1⟩
    have h1 : ∀ ev ∈ evs1, isPowerEvent ev = false ∧ ev ≠ Event.gameOver := by
      have h := ih es s k
      rw [hgl] at h
      exact h
    simp only [grenadeLoop, hgl]
    by_cases hx : g.exploded
    · simp only [hx, if_true]
      intro ev hev
      simp only [List.mem_append] at hev
      rcases hev with hev | hev
      · exact h1 ev hev
      · exact grenadeScan_events_shape dmg g es1 s1 k1 ev hev
    · simp only [hx, Bool.false_eq_true, if_false]
      simpa using h1

theorem powerUpScan_events_power (ovPP : PlayerE → PowerUpE → Bool)
    (applyPU : PowerUpE → PlayerE → PlayerE) (p : PlayerE)
    (pus : List PowerUpE) :
    ∀ ev ∈ (powerUpScan ovPP applyPU p pus).2.2.1, isPowerEvent ev = true := by
  induction pus with
  | nil => simp [powerUpScan]
  | cons pu rest ih =>
    rcases hps : powerUpScan ovPP applyPU p rest with ⟨p1, rest1, evs1, hit⟩
    have h1 : ∀ ev ∈ evs1, isPowerEvent ev = true := by
      rw [hps] at ih
      exact ih
    simp only [powerUpScan, hps]
    by_cases hh : hit
    · simp only [hh, if_true]
      simpa using h1
    · simp only [Bool.not_eq_true] at hh
      subst hh
      simp only [Bool.false_eq_true, if_false]
      by_cases ho : ovPP p pu
      · simp only [ho, if_true]
        intro ev hev
        simp only [List.mem_cons, List.not_mem_nil, or_false] at hev
        rcases hev with rfl | rfl <;> simp [isPowerEvent]
      · simp only [ho, Bool.false_eq_true, if_false]
        simp

theorem powerUpScan_no_damage (ovPP : PlayerE → PowerUpE → Bool)
    (applyPU : PowerUpE → PlayerE → PlayerE) (p : PlayerE)
    (pus : List PowerUpE) (src : DmgSource) (eid : Nat) :
    damageCountFrom src (powerUpScan ovPP applyPU p pus).2.2.1 = 0 ∧
    damageCountTo eid (powerUpScan ovPP applyPU p pus).2.2.1 = 0 ∧
    killedTypes (powerUpScan ovPP applyPU p pus).2.2.1 = [] ∧
    bossDefeatedCount (powerUpScan ovPP applyPU p pus).2.2.1 = 0 ∧
    Event.gameOver ∉ (powerUpScan ovPP applyPU p pus).2.2.1 := by
  have hp := powerUpScan_events_power ovPP applyPU p pus
  refine ⟨?_, ?_, ?_, ?_, ?_⟩
  · refine List.countP_eq_zero.mpr fun ev hev => ?_
    have := hp ev hev
    cases ev <;> simp_all [isPowerEvent, isDamageFrom]
  · refine List.countP_eq_zero.mpr fun ev hev => ?_
    have := hp ev hev
    cases ev <;> simp_all [isPowerEvent, isDamageTo]
  · refine List.filterMap_eq_nil.mpr fun ev hev => ?_
    have := hp ev hev
    cases ev <;> simp_all [isPowerEvent]
  · refine List.countP_eq_zero.mpr fun ev hev => ?_
    have := hp ev hev
    cases ev <;> simp_all [isPowerEvent]
  · intro hev
    have := hp _ hev
    simp [isPowerEvent] at this

/-- Claim C2: in a single checkCollisions call, each bullet triggers
at most one takeDamage invocation: once it overlaps some enemy the
bullet is removed (its id is absent from the returned bullet list)
and no further enemy is tested against it, even if several enemies
overlap it simultaneously. -/
theorem bullet_at_most_one_damage (ov : BulletE → EnemyE → Bool)
    (dmg : EnemyE → EnemyE × Bool) (ovPE : PlayerE → EnemyE → Bool)
    (ovPP : PlayerE → PowerUpE → Bool) (applyPU : PowerUpE → PlayerE → PlayerE)
    (p : PlayerE) (bullets : List BulletE) (grenades : List GrenadeE)
    (enemies : List EnemyE) (powerUps : List PowerUpE) (score kills : Nat)
    (hnd : (bullets.map BulletE.id).Nodup) :
    ∀ b ∈ bullets,
      damageCountFrom (DmgSource.bullet b.id)
        (checkCollisions ov dmg ovPE ovPP applyPU p bullets grenades enemies
          powerUps score kills).events ≤ 1 ∧
      (damageCountFrom (DmgSource.bullet b.id)
          (checkCollisions ov dmg ovPE ovPP applyPU p bullets grenades enemies
            powerUps score kills).events = 1 →
        b.id ∉ (checkCollisions ov dmg ovPE ovPP applyPU p bullets grenades
          enemies powerUps score kills).bullets.map BulletE.id) := by
  intro b hb
  rcases hbl : bulletLoop ov dmg bullets enemies score kills with
    ⟨bs, es1, s1, k1, evs1⟩
  rcases hgl : grenadeLoop dmg grenades es1 s1 k1 with ⟨es2, s2, k2, evs2⟩
  rcases hps : powerUpScan ovPP applyPU p powerUps with ⟨p1, pus, evs3, hitb⟩
  have hper := bulletLoop_per_bullet ov dmg bullets enemies score kills hnd b hb
  rw [hbl] at hper
  simp only at hper
  have hg : damageCountFrom (DmgSource.bullet b.id) evs2 = 0 := by
    have h := grenadeLoop_src_zero dmg grenades es1 s1 k1
      (DmgSource.bullet b.id) fun x hx => by simp
    rw [hgl] at h
    exact h
  have hp3 : damageCountFrom (DmgSource.bullet b.id) evs3 = 0 := by
    have h := (powerUpScan_no_damage ovPP applyPU p powerUps
      (DmgSource.bullet b.id) 0).1
    rw [hps] at h
    exact h
  have hgo : damageCountFrom (DmgSource.bullet b.id) [Event.gameOver] = 0 := by
    simp [damageCountFrom, isDamageFrom]
  simp only [checkCollisions, hbl, hgl, hps]
  split
  · simp only [damageCountFrom_append, hg, hgo, hper, Nat.add_zero]
    constructor
    · split <;> simp
    · split
      · simp
      · rename_i hmem
        intro _
        exact hmem
  · simp only [damageCountFrom_append, hg, hp3, hper, Nat.add_zero]
    constructor
    · split <;> simp
    · split
      · simp
      · rename_i hmem
        intro _
        exact hmem

/-- Claim C2 witness: one bullet over two simultaneously overlapping
one-health enemies resolves against at most one of them and is
removed from the returned bullet list. -/
theorem bullet_at_most_one_damage_witness :
    damageCountFrom (DmgSource.bullet 1)
      (checkCollisions (fun _ _ => true) baseDamage (fun _ _ => false)
        (fun _ _ => false) (fun _ pl => pl)
        { invincible := false, dead := false, grenadeCount := 10 }
        [{ id := 1 }] []
        [{ id := 5, etype := .SOLDIER, health := 1, x := 0, y := 0 },
         { id := 6, etype := .SOLDIER, health := 1, x := 0, y := 0 }]
        [] 0 0).events ≤ 1 := by
  have h := bullet_at_most_one_damage (fun _ _ => true) baseDamage
    (fun _ _ => false) (fun _ _ => false) (fun _ pl => pl)
    { invincible := false, dead := false, grenadeCount := 10 }
    [{ id := 1 }] []
    [{ id := 5, etype := .SOLDIER, health := 1, x := 0, y := 0 },
     { id := 6, etype := .SOLDIER, health := 1, x := 0, y := 0 }]
    [] 0 0 (by simp)
    { id := 1 } (List.mem_singleton.mpr rfl)
  exact h.1

/-- Claim C3: in a single checkCollisions call, a grenade whose
exploded flag is false causes zero takeDamage invocations regardless
of enemy distance (first part, for any call); and an exploded grenade
causes exactly one takeDamage invocation for every enemy within its
explosion radius and none for enemies beyond it (second part, stated
for the call that resolves that grenade against the live enemy
list). -/
theorem grenade_damage_iff_exploded_within_radius
    (ov : BulletE → EnemyE → Bool) (dmg : EnemyE → EnemyE × Bool)
    (ovPE : PlayerE → EnemyE → Bool) (ovPP : PlayerE → PowerUpE → Bool)
    (applyPU : PowerUpE → PlayerE → PlayerE) (p : PlayerE)
    (bullets : List BulletE) (grenades : List GrenadeE)
    (enemies : List EnemyE) (powerUps : List PowerUpE) (score kills : Nat)
    (g : GrenadeE) :
    ((grenades.map GrenadeE.id).Nodup → g ∈ grenades → g.exploded = false →
      damageCountFrom (DmgSource.grenade g.id)
        (checkCollisions ov dmg ovPE ovPP applyPU p bullets grenades enemies
          powerUps score kills).events = 0) ∧
    (g.exploded = true → (enemies.map EnemyE.id).Nodup →
      ∀ e ∈ enemies,
        damageCountTo e.id
          (checkCollisions ov dmg ovPE ovPP applyPU p [] [g] enemies powerUps
            score kills).events =
          if withinRadius g e then 1 else 0) := by
  constructor
  · intro hgnd hmem hexp
    rcases hbl : bulletLoop ov dmg bullets enemies score kills with
      ⟨bs, es1, s1, k1, evs1⟩
    rcases hgl : grenadeLoop dmg grenades es1 s1 k1 with ⟨es2, s2, k2, evs2⟩
    rcases hps : powerUpScan ovPP applyPU p powerUps with ⟨p1, pus, evs3, hitb⟩
    have h1 : damageCountFrom (DmgSource.grenade g.id) evs1 = 0 := by
      have h := bulletLoop_src_zero ov dmg bullets enemies score kills
        (DmgSource.grenade g.id) fun x hx => by simp
      rw [hbl] at h
      exact h
    have h2 : damageCountFrom (DmgSource.grenade g.id) evs2 = 0 := by
      have h := grenadeLoop_unexploded_zero dmg grenades es1 s1 k1 hgnd g hmem hexp
      rw [hgl] at h
      exact h
    have h3 : damageCountFrom (DmgSource.grenade g.id) evs3 = 0 := by
      have h := (powerUpScan_no_damage ovPP applyPU p powerUps
        (DmgSource.grenade g.id) 0).1
      rw [hps] at h
      exact h
    have hgo : damageCountFrom (DmgSource.grenade g.id) [Event.gameOver] = 0 := by
      simp [damageCountFrom, isDamageFrom]
    simp only [checkCollisions, hbl, hgl, hps]
    split
    · simp [damageCountFrom_append, h1, h2, hgo]
    · simp [damageCountFrom_append, h1, h2, h3]
  · intro hexp hend e he
    rcases hscan : grenadeScan dmg g enemies score kills with ⟨esx, sx, kx, evsx⟩
    have hbl : bulletLoop ov dmg [] enemies score kills =
        ([], enemies, score, kills, []) := rfl
    have hgl : grenadeLoop dmg [g] enemies score kills = (esx, sx, kx, evsx) := by
      simp only [grenadeLoop, hexp, if_true, hscan, List.nil_append]
    rcases hps : powerUpScan ovPP applyPU p powerUps with ⟨p1, pus, evs3, hitb⟩
    have h1 : damageCountTo e.id evsx = if withinRadius g e then 1 else 0 := by
      have h := grenadeScan_per_enemy dmg g enemies score kills hend e he
      rw [hscan] at h
      exact h
    have h3 : damageCountTo e.id evs3 = 0 := by
      have h := (powerUpScan_no_damage ovPP applyPU p powerUps
        (DmgSource.grenade g.id) e.id).2.1
      rw [hps] at h
      exact h
    have hgo : damageCountTo e.id [Event.gameOver] = 0 := by
      simp [damageCountTo, isDamageTo]
    simp only [checkCollisions, hbl, hgl, hps]
    split
    · simp [damageCountTo_append, h1, hgo]
    · simp [damageCountTo_append, h1, h3]

/-- Claim C3 witness: an unexploded grenade causes zero damage
invocations in a concrete call, and an exploded grenade at the origin
with radius 80 damages a tank at distance 0 exactly once and a tank
at distance 100 not at all. -/
theorem grenade_damage_iff_exploded_within_radius_witness :
    damageCountFrom (DmgSource.grenade 7)
      (checkCollisions (fun _ _ => false) baseDamage (fun _ _ => false)
        (fun _ _ => false) (fun _ pl => pl)
        { invincible := false, dead := false, grenadeCount := 10 }
        [] [{ id := 7, x := 0, y := 0, exploded := false, explosionRadius := 80 }]
        [{ id := 5, etype := .TANK, health := 3, x := 0, y := 0 }]
        [] 0 0).events = 0 ∧
    withinRadius { id := 7, x := 0, y := 0, exploded := true, explosionRadius := 80 }
      { id := 5, etype := .TANK, health := 3, x := 0, y := 0 } = true ∧
    withinRadius { id := 7, x := 0, y := 0, exploded := true, explosionRadius := 80 }
      { id := 6, etype := .TANK, health := 3, x := 100, y := 0 } = false ∧
    damageCountTo 5
      (checkCollisions (fun _ _ => false) baseDamage (fun _ _ => false)
        (fun _ _ => false) (fun _ pl => pl)
        { invincible := false, dead := false, grenadeCount := 10 }
        [] [{ id := 7, x := 0, y := 0, exploded := true, explosionRadius := 80 }]
        [{ id := 5, etype := .TANK, health := 3, x := 0, y := 0 },
         { id := 6, etype := .TANK, health := 3, x := 100, y := 0 }]
        [] 0 0).events =
      (if withinRadius
          { id := 7, x := 0, y := 0, exploded := true, explosionRadius := 80 }
          { id := 5, etype := .TANK, health := 3, x := 0, y := 0 } then 1 else 0) ∧
    damageCountTo 6
      (checkCollisions (fun _ _ => false) baseDamage (fun _ _ => false)
        (fun _ _ => false) (fun _ pl => pl)
        { invincible := false, dead := false, grenadeCount := 10 }
        [] [{ id := 7, x := 0, y := 0, exploded := true, explosionRadius := 80 }]
        [{ id := 5, etype := .TANK, health := 3, x := 0, y := 0 },
         { id := 6, etype := .TANK, health := 3, x := 100, y := 0 }]
        [] 0 0).events =
      (if withinRadius
          { id := 7, x := 0, y := 0, exploded := true, explosionRadius := 80 }
          { id := 6, etype := .TANK, health := 3, x := 100, y := 0 } then 1 else 0) := by
  refine ⟨?_, ?_, ?_, ?_, ?_⟩
  · exact (grenade_damage_iff_exploded_within_radius (fun _ _ => false)
      baseDamage (fun _ _ => false) (fun _ _ => false) (fun _ pl => pl)
      { invincible := false, dead := false, grenadeCount := 10 }
      [] [{ id := 7, x := 0, y := 0, exploded := false, explosionRadius := 80 }]
      [{ id := 5, etype := .TANK, health := 3, x := 0, y := 0 }]
      [] 0 0
      { id := 7, x := 0, y := 0, exploded := false, explosionRadius := 80 }).1
      (by simp) (List.mem_singleton.mpr rfl) rfl
  · simp only [withinRadius, decide_eq_true_eq]
    norm_num
  · simp only [withinRadius, decide_eq_false_iff_not]
    norm_num
  · exact (grenade_damage_iff_exploded_within_radius (fun _ _ => false)
      baseDamage (fun _ _ => false) (fun _ _ => false) (fun _ pl => pl)
      { invincible := false, dead := false, grenadeCount := 10 }
      [] [{ id := 7, x := 0, y := 0, exploded := true, explosionRadius := 80 }]
      [{ id := 5, etype := .TANK, health := 3, x := 0, y := 0 },
       { id := 6, etype := .TANK, health := 3, x := 100, y := 0 }]
      [] 0 0
      { id := 7, x := 0, y := 0, exploded := true, explosionRadius := 80 }).2
      rfl (by simp)
      { id := 5, etype := .TANK, health := 3, x := 0, y := 0 }
      (List.mem_cons_self _ _)
  · exact (grenade_damage_iff_exploded_within_radius (fun _ _ => false)
      baseDamage (fun _ _ => false) (fun _ _ => false) (fun _ pl => pl)
      { invincible := false, dead := false, grenadeCount := 10 }
      [] [{ id := 7, x := 0, y := 0, exploded := true, explosionRadius := 80 }]
      [{ id := 5, etype := .TANK, health := 3, x := 0, y := 0 },
       { id := 6, etype := .TANK, health := 3, x := 100, y := 0 }]
      [] 0 0
      { id := 7, x := 0, y := 0, exploded := true, explosionRadius := 80 }).2
      rfl (by simp)
      { id := 6, etype := .TANK, health := 3, x := 100, y := 0 }
      (List.mem_cons_of_mem _ (List.mem_cons_self _ _))

/-- Claim C4: the player-death callback never fires while the player
is invincible or already dead; and whenever it fires the function
returns immediately, so no power-up resolution (no apply, no collect,
no grenade-count report) happens in that tick: the event list has no
power-up events, the power-up list is returned unmodified and the
player state is untouched. -/
theorem player_death_skips_powerups (ov : BulletE → EnemyE → Bool)
    (dmg : EnemyE → EnemyE × Bool) (ovPE : PlayerE → EnemyE → Bool)
    (ovPP : PlayerE → PowerUpE → Bool) (applyPU : PowerUpE → PlayerE → PlayerE)
    (p : PlayerE) (bullets : List BulletE) (grenades : List GrenadeE)
    (enemies : List EnemyE) (powerUps : List PowerUpE) (score kills : Nat) :
    ((p.invincible = true ∨ p.dead = true) →
      Event.gameOver ∉
        (checkCollisions ov dmg ovPE ovPP applyPU p bullets grenades enemies
          powerUps score kills).events) ∧
    (Event.gameOver ∈
        (checkCollisions ov dmg ovPE ovPP applyPU p bullets grenades enemies
          powerUps score kills).events →
      (∀ ev ∈ (checkCollisions ov dmg ovPE ovPP applyPU p bullets grenades
          enemies powerUps score kills).events, isPowerEvent ev = false) ∧
      (checkCollisions ov dmg ovPE ovPP applyPU p bullets grenades enemies
        powerUps score kills).powerUps = powerUps ∧
      (checkCollisions ov dmg ovPE ovPP applyPU p bullets grenades enemies
        powerUps score kills).player = p) := by
  rcases hbl : bulletLoop ov dmg bullets enemies score kills with
    ⟨bs, es1, s1, k1, evs1⟩
  rcases hgl : grenadeLoop dmg grenades es1 s1 k1 with ⟨es2, s2, k2, evs2⟩
  rcases hps : powerUpScan ovPP applyPU p powerUps with ⟨p1, pus, evs3, hitb⟩
  have hs1 := bulletLoop_events_shape ov dmg bullets enemies score kills
  rw [hbl] at hs1
  simp only at hs1
  have hs2 := grenadeLoop_events_shape dmg grenades es1 s1 k1
  rw [hgl] at hs2
  simp only at hs2
  have hs3 : Event.gameOver ∉ evs3 := by
    have h := (powerUpScan_no_damage ovPP applyPU p powerUps
      (DmgSource.bullet 0) 0).2.2.2.2
    rw [hps] at h
    exact h
  simp only [checkCollisions, hbl, hgl, hps]
  split
  · rename_i hcond
    simp only [Bool.and_eq_true, Bool.not_eq_true'] at hcond
    constructor
    · intro hor
      rcases hor with h | h
      · rw [hcond.1.1] at h
        cases h
      · rw [hcond.1.2] at h
        cases h
    · intro _
      refine ⟨?_, rfl, rfl⟩
      intro ev hev
      simp only [List.mem_append, List.mem_cons, List.not_mem_nil,
        or_false] at hev
      rcases hev with (hev | hev) | rfl
      · exact (hs1 ev hev).1
      · exact (hs2 ev hev).1
      · rfl
  · have hno : Event.gameOver ∉ evs1 ++ evs2 ++ evs3 := by
      intro hmem
      simp only [List.mem_append] at hmem
      rcases hmem with (hm | hm) | hm
      · exact (hs1 _ hm).2 rfl
      · exact (hs2 _ hm).2 rfl
      · exact hs3 hm
    exact ⟨fun _ => hno, fun hmem => absurd hmem hno⟩

/-- Claim C4 witness: with an invincible player no game-over event is
emitted, and in a call where the player overlaps an enemy while
vulnerable, the game-over event is present and the power-up list
comes back unmodified. -/
theorem player_death_skips_powerups_witness :
    Event.gameOver ∉
      (checkCollisions (fun _ _ => false) baseDamage (fun _ _ => true)
        (fun _ _ => true) (fun _ pl => pl)
        { invincible := true, dead := false, grenadeCount := 10 }
        [] [] [{ id := 5, etype := .SOLDIER, health := 1, x := 0, y := 0 }]
        [{ id := 9, collected := false }] 0 0).events ∧
    Event.gameOver ∈
      (checkCollisions (fun _ _ => false) baseDamage (fun _ _ => true)
        (fun _ _ => true) (fun _ pl => pl)
        { invincible := false, dead := false, grenadeCount := 10 }
        [] [] [{ id := 5, etype := .SOLDIER, health := 1, x := 0, y := 0 }]
        [{ id := 9, collected := false }] 0 0).events ∧
    (checkCollisions (fun _ _ => false) baseDamage (fun _ _ => true)
        (fun _ _ => true) (fun _ pl => pl)
        { invincible := false, dead := false, grenadeCount := 10 }
        [] [] [{ id := 5, etype := .SOLDIER, health := 1, x := 0, y := 0 }]
        [{ id := 9, collected := false }] 0 0).powerUps =
      [{ id := 9, collected := false }] := by
  have hmem : Event.gameOver ∈
      (checkCollisions (fun _ _ => false) baseDamage (fun _ _ => true)
        (fun _ _ => true) (fun _ pl => pl)
        { invincible := false, dead := false, grenadeCount := 10 }
        [] [] [{ id := 5, etype := .SOLDIER, health := 1, x := 0, y := 0 }]
        [{ id := 9, collected := false }] 0 0).events := by
    simp [checkCollisions, bulletLoop, grenadeLoop]
  refine ⟨?_, hmem, ?_⟩
  · exact (player_death_skips_powerups (fun _ _ => false) baseDamage
      (fun _ _ => true) (fun _ _ => true) (fun _ pl => pl)
      { invincible := true, dead := false, grenadeCount := 10 }
      [] [] [{ id := 5, etype := .SOLDIER, health := 1, x := 0, y := 0 }]
      [{ id := 9, collected := false }] 0 0).1 (Or.inl rfl)
  · exact ((player_death_skips_powerups (fun _ _ => false) baseDamage
      (fun _ _ => true) (fun _ _ => true) (fun _ pl => pl)
      { invincible := false, dead := false, grenadeCount := 10 }
      [] [] [{ id := 5, etype := .SOLDIER, health := 1, x := 0, y := 0 }]
      [{ id := 9, collected := false }] 0 0).2 hmem).2.1

/-- Claim C5: the archetype scoring table is Soldier 100, Tank 300,
Jeep 200, KnifeSoldier 150, RocketLauncher 250, CoveredSoldier 175,
Bunker 400, Boss 1000 (the enum is closed, so no other type exists);
and over a checkCollisions call the score grows by exactly the sum of
the table points of the destroyed enemies, the kill count grows by
one per destroyed enemy, and the boss-defeated callback fires exactly
once per destroyed enemy of Boss archetype. -/
theorem score_kill_boss_accounting (ov : BulletE → EnemyE → Bool)
    (dmg : EnemyE → EnemyE × Bool) (ovPE : PlayerE → EnemyE → Bool)
    (ovPP : PlayerE → PowerUpE → Bool) (applyPU : PowerUpE → PlayerE → PlayerE)
    (p : PlayerE) (bullets : List BulletE) (grenades : List GrenadeE)
    (enemies : List EnemyE) (powerUps : List PowerUpE) (score kills : Nat) :
    getPointsForEnemy .SOLDIER = 100 ∧ getPointsForEnemy .TANK = 300 ∧
    getPointsForEnemy .JEEP = 200 ∧ getPointsForEnemy .KNIFE_SOLDIER = 150 ∧
    getPointsForEnemy .ROCKET_LAUNCHER = 250 ∧
    getPointsForEnemy .COVERED_SOLDIER = 175 ∧
    getPointsForEnemy .BUNKER = 400 ∧ getPointsForEnemy .BOSS = 1000 ∧
    (checkCollisions ov dmg ovPE ovPP applyPU p bullets grenades enemies
        powerUps score kills).score =
      score + ((killedTypes (checkCollisions ov dmg ovPE ovPP applyPU p bullets
        grenades enemies powerUps score kills).events).map getPointsForEnemy).sum ∧
    (checkCollisions ov dmg ovPE ovPP applyPU p bullets grenades enemies
        powerUps score kills).kills =
      kills + (killedTypes (checkCollisions ov dmg ovPE ovPP applyPU p bullets
        grenades enemies powerUps score kills).events).length ∧
    bossDefeatedCount (checkCollisions ov dmg ovPE ovPP applyPU p bullets
        grenades enemies powerUps score kills).events =
      (killedTypes (checkCollisions ov dmg ovPE ovPP applyPU p bullets grenades
        enemies powerUps score kills).events).countP
        fun t => decide (t = EnemyType.BOSS) := by
  rcases hbl : bulletLoop ov dmg bullets enemies score kills with
    ⟨bs, es1, s1, k1, evs1⟩
  rcases hgl : grenadeLoop dmg grenades es1 s1 k1 with ⟨es2, s2, k2, evs2⟩
  rcases hps : powerUpScan ovPP applyPU p powerUps with ⟨p1, pus, evs3, hitb⟩
  have acc1 : accOk score kills s1 k1 evs1 := by
    have h := bulletLoop_acc ov dmg bullets enemies score kills
    rw [hbl] at h
    exact h
  have acc2 : accOk s1 k1 s2 k2 evs2 := by
    have h := grenadeLoop_acc dmg grenades es1 s1 k1
    rw [hgl] at h
    exact h
  have acc12 : accOk score kills s2 k2 (evs1 ++ evs2) :=
    accOk_append _ _ _ _ _ _ _ _ acc1 acc2
  have accGo : accOk s2 k2 s2 k2 [Event.gameOver] := by
    simp [accOk, killedTypes, bossDefeatedCount]
  have acc3 : accOk s2 k2 s2 k2 evs3 := by
    have hkt : killedTypes evs3 = [] := by
      have h := (powerUpScan_no_damage ovPP applyPU p powerUps
        (DmgSource.bullet 0) 0).2.2.1
      rw [hps] at h
      exact h
    have hbc : bossDefeatedCount evs3 = 0 := by
      have h := (powerUpScan_no_damage ovPP applyPU p powerUps
        (DmgSource.bullet 0) 0).2.2.2.1
      rw [hps] at h
      exact h
    exact ⟨by simp [hkt], by simp [hkt], by simp [hkt, hbc]⟩
  refine ⟨rfl, rfl, rfl, rfl, rfl, rfl, rfl, rfl, ?_, ?_, ?_⟩ <;>
    simp only [checkCollisions, hbl, hgl, hps] <;>
    split
  · exact (accOk_append _ _ _ _ _ _ _ _ acc12 accGo).1
  · exact (accOk_append _ _ _ _ _ _ _ _ acc12 acc3).1
  · exact (accOk_append _ _ _ _ _ _ _ _ acc12 accGo).2.1
  · exact (accOk_append _ _ _ _ _ _ _ _ acc12 acc3).2.1
  · exact (accOk_append _ _ _ _ _ _ _ _ acc12 accGo).2.2
  · exact (accOk_append _ _ _ _ _ _ _ _ acc12 acc3).2.2

end Commando
